import Mathlib

/-!
Shallow embedding of `src/py2c_ast.py` (the py2c translator core).

The Python module walks a CPython `ast` tree and writes C-like text to a
sink (`converter.save_to`), threading three pieces of mutable state through
the recursion: the indentation `level`, the `parents` ancestor stack and the
`has_while_orelse` stack (both stored in `converter.transit_data`).

Modelling decisions, all noted where they apply:
- the output sink is append-only and never read back, so the emission monad
  returns the written text alongside the resulting state
  (`EmitM α = Ctx → String × Except Err (α × Ctx)`); on an exception the
  text written so far is still reported, matching Python semantics where
  the sink keeps everything written before the raise;
- Python exceptions are the `Err` type: the module's own
  `SourceCodeException` hierarchy plus the builtin `NameError`,
  `AttributeError`, `TypeError` and `IndexError` that the code can hit;
- CPython `ast` nodes are the `Node` inductive; `ast.Index` / `ast.Slice`
  are node classes, hence ordinary constructors; node kinds the dispatcher
  does not recognise (`ast.For`, comprehensions, ...) are represented by
  `Node.unknownKind` carrying the class name;
- the Python lists `parents` / `has_while_orelse` append and pop at the
  right end; they are modelled as Lean lists with the head as the top
  (append = cons, `[-1]` = head, `pop()` = tail);
- `lineno` / `col_offset` bookkeeping is omitted: it only decorates
  diagnostics and never influences the emitted text or control flow;
- the transient `custom_ignore` flag makes `walk` a no-op on a marked node
  before any state is touched; the only mark that can ever be re-visited is
  the docstring statement of a `FunctionDef`, so that case is modelled by
  removing the marked statement from the body the emitter loops over
  (`extractDocstring`); the marks placed on operator nodes, `Name.ctx`,
  `ast.Index` and annotation nodes guard nodes that are never dispatched
  again and need no model;
- recursion is fueled (`walkAux fuel`): running out of fuel is the
  distinguished `Err.outOfFuel`, never confused with a Python exception;
- Python `str.strip` / `split` / `in` are re-implemented structurally
  (`pyStrip`, `splitOnChar`, `containsChar`) so that concrete runs reduce
  definitionally; floats are not modelled (no claim touches them).
-/

namespace Py2C

/-- Python runtime values that can sit in `ast.Constant.value`, in a resolved
annotation, or in `docstring_comment`. Floats are not modelled. -/
inductive PyVal where
  | vNone
  | vStr (s : String)
  | vBool (b : Bool)
  | vInt (n : Int)
deriving DecidableEq, Repr

/-- Python truthiness (`if docstring_comment:` and friends). -/
def pyTruthy : PyVal → Bool
  | .vNone => false
  | .vStr s => s ≠ ""
  | .vBool b => b
  | .vInt n => n ≠ 0

/-- Python `f-string` rendering `f'{value}'` of a value. -/
def pyStr : PyVal → String
  | .vNone => "None"
  | .vStr s => s
  | .vBool b => if b then "True" else "False"
  | .vInt n => toString n

/-- Rendering of an `Optional` value, `None` printing as `None`
(`convert_annotation` may return Python `None`). -/
def pyStrOpt : Option PyVal → String
  | none => "None"
  | some v => pyStr v

/-- The exceptions the translator can raise: the module's
`SourceCodeException` family plus the Python builtins it can trip over,
plus the fuel marker of this embedding. -/
inductive Err where
  | sourceCode (msg : String)        -- SourceCodeException
  | invalidAnnotationError (msg : String) -- InvalidAnnotationException
  | noneNotAllowed (msg : String)    -- NoneIsNotAllowedException
  | nameError (name : String)        -- builtin NameError
  | attributeError (name : String)   -- builtin AttributeError
  | pyTypeError (msg : String)       -- builtin TypeError
  | indexError (msg : String)        -- builtin IndexError
  | outOfFuel                        -- artefact of the fueled embedding
deriving DecidableEq, Repr

/-- `ast` operator tags handled (or rejected) by `convert_op`;
`floorDiv` and `pow` stand for the commented-out tags that fall through to
the `raise`. -/
inductive BinOperator where
  | add | sub | mult | div | mod | bitOr | bitXor | bitAnd | floorDiv | pow
deriving DecidableEq, Repr

/-- `ast` comparison tags for `convert_compare_op`; `isOp` stands for the
unhandled tags (`Is`, `In`, ...). -/
inductive CmpOperator where
  | gt | gte | lt | lte | eq | ne | isOp
deriving DecidableEq, Repr

/-- `ast` boolean-operator tags for `convert_bool_op`. -/
inductive BoolOperator where
  | orOp | andOp
deriving DecidableEq, Repr

/-- `ast` unary-operator tags for `convert_unary_op`. -/
inductive UnaryOperator where
  | uadd | usub | notOp | invert
deriving DecidableEq, Repr

/-- CPython `ast` nodes, restricted to what `walk` inspects.  Function
arguments are `(arg.annotation, arg.arg)` pairs.  `functionDef.typeComment`
models `hasattr(node, 'type_comment')`: `none` = attribute absent
(a pre-3.8 parse), `some tc` = attribute present holding `tc`
(always present from Python 3.8 on, normally holding `None`).
`unknownKind s` stands for any node class `s` the dispatcher has no branch
for (`For`, `ClassDef`, comprehensions, ...). -/
inductive Node where
  | module (body : List Node)
  | annAssign (target : Node) ( annotation : Option Node) (value : Option Node)
  | assign (targets : List Node) (value : Node)
  | augAssign (target : Node) (op : BinOperator) (value : Node)
  | functionDef (fname : String) (args : List (Option Node × String))
      (body : List Node) (returns : Option Node) (typeComment : Option (Option String))
  | ret (value : Option Node)
  | whileStmt (test : Node) (body : List Node) (orelse : List Node)
  | ifStmt (test : Node) (body : List Node) (orelse : List Node)
  | breakStmt
  | continueStmt
  | exprStmt (value : Node)
  | passStmt
  | delete (targets : List Node)
  | importStmt (names : List String)
  | importFrom (module : String)
  | constant (value : PyVal)
  | num (n : Int)
  | strLit (s : String)
  | name (id : String)
  | binOp (left : Node) (op : BinOperator) (right : Node)
  | boolOp (op : BoolOperator) (values : List Node)
  | unaryOp (op : UnaryOperator) (operand : Node)
  | compare (left : Node) (ops : List CmpOperator) (comparators : List Node)
  | call (func : Node) (args : List Node)
  | ifExp (test : Node) (body : Node) (orelse : Node)
  | attributeN (value : Node) (attr : String)
  | lambdaE (args : List (Option Node × String)) (body : Node)
  | subscript (value : Node) (slice : Node)
  | indexN (value : Node)
  | sliceN (lower upper step : Option Node)
  | unknownKind (className : String)

/-- `node.__class__.__name__`, used in the unknown-node message. -/
def kindName : Node → String
  | .module _ => "Module"
  | .annAssign _ _ _ => "AnnAssign"
  | .assign _ _ => "Assign"
  | .augAssign _ _ _ => "AugAssign"
  | .functionDef _ _ _ _ _ => "FunctionDef"
  | .ret _ => "Return"
  | .whileStmt _ _ _ => "While"
  | .ifStmt _ _ _ => "If"
  | .breakStmt => "Break"
  | .continueStmt => "Continue"
  | .exprStmt _ => "Expr"
  | .passStmt => "Pass"
  | .delete _ => "Delete"
  | .importStmt _ => "Import"
  | .importFrom _ => "ImportFrom"
  | .constant _ => "Constant"
  | .num _ => "Num"
  | .strLit _ => "Str"
  | .name _ => "Name"
  | .binOp _ _ _ => "BinOp"
  | .boolOp _ _ => "BoolOp"
  | .unaryOp _ _ => "UnaryOp"
  | .compare _ _ _ => "Compare"
  | .call _ _ => "Call"
  | .ifExp _ _ _ => "IfExp"
  | .attributeN _ _ => "Attribute"
  | .lambdaE _ _ => "Lambda"
  | .subscript _ _ => "Subscript"
  | .indexN _ => "Index"
  | .sliceN _ _ _ => "Slice"
  | .unknownKind s => s

/-! ## Structural re-implementations of the Python string primitives -/

/-- Python `c in s` for a single character (`'\n' in comment`). -/
def containsChar (s : String) (c : Char) : Bool :=
  s.data.contains c

/-- Characters Python `str.strip()` removes (the common whitespace set). -/
def isSpaceChar (c : Char) : Bool :=
  c = ' ' || c = '\t' || c = '\n' || c = '\r'

/-- Python `s.strip()`. -/
def pyStrip (s : String) : String :=
  String.mk (((s.data.dropWhile isSpaceChar).reverse.dropWhile isSpaceChar).reverse)

/-- Helper for `splitOnChar`. -/
def splitOnCharAux (c : Char) : List Char → List Char → List String
  | [], acc => [String.mk acc.reverse]
  | x :: xs, acc =>
    if x = c then String.mk acc.reverse :: splitOnCharAux c xs []
    else splitOnCharAux c xs (x :: acc)

/-- Python `s.split(c)` for a one-character separator
(`comment.strip().split('\n')`). -/
def splitOnChar (c : Char) (s : String) : List String :=
  splitOnCharAux c s.data []

/-- `'    ' * self.level` (the `ident` property); a negative level renders
as the empty string, as in Python. -/
def identStr (level : Int) : String :=
  String.join (List.replicate level.toNat "    ")

/-! ## Operator tables (`convert_op` and friends) -/

/-- `convert_op`: arithmetic / bitwise operator tag to C text; tags with no
entry raise `SourceCodeException('unknown node operator', node)`. -/
def convert_op : BinOperator → Except Err String
  | .add => .ok "+"
  | .sub => .ok "-"
  | .mult => .ok "*"
  | .div => .ok "/"
  | .mod => .ok "%"
  | .bitOr => .ok "|"
  | .bitXor => .ok "^"
  | .bitAnd => .ok "&"
  | .floorDiv => .error (.sourceCode "unknown node operator")
  | .pow => .error (.sourceCode "unknown node operator")

/-- `convert_compare_op`. -/
def convert_compare_op : CmpOperator → Except Err String
  | .gt => .ok ">"
  | .gte => .ok ">="
  | .lt => .ok "<"
  | .lte => .ok "<="
  | .eq => .ok "=="
  | .ne => .ok "!="
  | .isOp => .error (.sourceCode "unknown node compare operator")

/-- `convert_bool_op`. -/
def convert_bool_op : BoolOperator → Except Err String
  | .orOp => .ok "||"
  | .andOp => .ok "&&"

/-- `convert_unary_op`. -/
def convert_unary_op : UnaryOperator → Except Err String
  | .uadd => .ok "+"
  | .usub => .ok "-"
  | .notOp => .ok "!"
  | .invert => .ok "~"

/-- `is_constant_none(node)`: `isinstance(node, (Constant, Num, Str)) and
node.value is None`.  Under the 3.8-era parser the code targets, `Num` and
`Str` are `Constant` aliases whose `value` is the number / string, never
`None`, so only a `Constant` holding `None` passes the test. -/
def is_constant_none : Node → Bool
  | .constant v => v = .vNone
  | _ => false

/-- `convert_annotation(annotation_node, parent_node)`: `None` input stays
`None`; a `Name` yields its identifier; a `Constant` yields its value
(raising on `None`); `Num`/`Str` yield their payloads; anything else raises
`InvalidAnnotationException`.  (The deprecated `NameConstant` alias branch
is not modelled.) -/
def convert_annotation : Option Node → Except Err (Option PyVal)
  | none => .ok none
  | some n =>
    match n with
    | .name id => .ok (some (.vStr id))
    | .constant v =>
      match v with
      | .vNone => .error (.noneNotAllowed "None is forbidden")
      | v => .ok (some v)
    | .num k => .ok (some (.vInt k))
    | .strLit s => .ok (some (.vStr s))
    | _ => .error (.invalidAnnotationError "unknown annotation node")

/-- Annotation conversion for a positional-argument list
(the `for arg in node.args.args` loop of the `FunctionDef` branch). -/
def convertArgs : List (Option Node × String) → Except Err (List (Option PyVal × String))
  | [] => .ok []
  | (ann, nm) :: rest =>
    match convert_annotation ann with
    | .error e => .error e
    | .ok v =>
      match convertArgs rest with
      | .error e => .error e
      | .ok vs => .ok ((v, nm) :: vs)

/-- Comparison-operator conversion for the `Compare` branch list
comprehension. -/
def convertCmps : List CmpOperator → Except Err (List String)
  | [] => .ok []
  | op :: rest =>
    match convert_compare_op op with
    | .error e => .error e
    | .ok o =>
      match convertCmps rest with
      | .error e => .error e
      | .ok os => .ok (o :: os)

/-! ## The emission context and monad -/

/-- The mutable state of one translation: `converter.level` plus the
`transit_data` stacks.  Both Python lists grow at the right end and are read
with `[-1]`; here the head of the Lean list is that end. -/
structure Ctx where
  level : Int
  hwo : List Bool       -- transit_data['has_while_orelse']
  parents : List Node   -- transit_data['parents']

/-- Emission monad: state plus append-only output plus exceptions.  Output
written before a raise is kept, as with Python's already-written sink. -/
def EmitM (α : Type) : Type :=
  Ctx → String × Except Err (α × Ctx)

/-- Monad operations of `EmitM`. -/
def EmitM.pure (a : α) : EmitM α := fun ctx => ("", .ok (a, ctx))

/-- Sequencing: concatenate output, short-circuit on an exception. -/
def EmitM.bind (m : EmitM α) (f : α → EmitM β) : EmitM β := fun ctx =>
  match m ctx with
  | (s, .ok (a, c)) =>
    match f a c with
    | (s2, r) => (s ++ s2, r)
  | (s, .error e) => (s, .error e)

instance : Monad EmitM where
  pure := EmitM.pure
  bind := EmitM.bind

/-- `self.write(data)`. -/
def write (data : String) : EmitM Unit := fun ctx => (data, .ok ((), ctx))

/-- Raise an exception. -/
def throwE (e : Err) : EmitM α := fun _ => ("", .error e)

/-- Read the whole state (for `parents[-1]`, `has_while_orelse[-1]`, ...). -/
def getCtx : EmitM Ctx := fun ctx => ("", .ok (ctx, ctx))

/-- The `self.ident` property. -/
def getIdent : EmitM String := fun ctx => ("", .ok (identStr ctx.level, ctx))

/-- `parents.append(node)`. -/
def pushParent (n : Node) : EmitM Unit := fun ctx =>
  ("", .ok ((), { ctx with parents := n :: ctx.parents }))

/-- `if parents: parents.pop()` at the end of `walk`. -/
def popParent : EmitM Unit := fun ctx =>
  ("", .ok ((), { ctx with parents := ctx.parents.tail }))

/-- `has_while_orelse.append(b)`. -/
def pushHwo (b : Bool) : EmitM Unit := fun ctx =>
  ("", .ok ((), { ctx with hwo := b :: ctx.hwo }))

/-- `has_while_orelse.pop()`. -/
def popHwo : EmitM Unit := fun ctx =>
  ("", .ok ((), { ctx with hwo := ctx.hwo.tail }))

/-- `CConverter.walk(node, level)`: bump `self.level`, run the dispatcher,
restore the level — the restore happens only on a normal return, exactly as
in the Python method where a raise skips `self.level -= level`. -/
def withLevel (lvl : Int) (m : EmitM Unit) : EmitM Unit := fun ctx =>
  match m { ctx with level := ctx.level + lvl } with
  | (s, .ok (_, c2)) => (s, .ok ((), { c2 with level := c2.level - lvl }))
  | (s, .error e) => (s, .error e)

/-! ## Emission routines (`CConverter.process_*`)

Each routine receives `walkF n lvl`, the model of `self.walk(n, lvl)`,
instead of being mutually recursive with the dispatcher (the Python code
routes these calls through the `self._walk` indirection). -/

/-- The walker type threaded through the routines. -/
abbrev WalkF : Type := Option Node → Int → EmitM Unit

/-- `process_constant`: `None` raises `NoneIsNotAllowedException`; strings
are quoted verbatim; booleans render as `1`/`0`; integers via `f'{value}'`. -/
def process_constant (value : PyVal) : EmitM Unit :=
  match value with
  | .vNone => throwE (.noneNotAllowed "None is forbidden")
  | .vStr s => write ("\x22" ++ s ++ "\x22")
  | .vBool b => write (if b then "1" else "0")
  | .vInt n => write (toString n)

/-- `process_name`. -/
def process_name (nm : String) : EmitM Unit := write nm

/-- `process_oneline_comment` — defined in the source but never reached:
the dispatcher calls the nonexistent `process_one_comment` instead. -/
def process_oneline_comment (comment : String) : EmitM Unit := do
  let i ← getIdent
  write (i ++ "// " ++ comment ++ "\n")

/-- `process_multiline_comment`: `comment.strip().split('\n')`, one write
per line, each prefixed with the current indentation.  Calling it with a
non-string (possible via a `Constant` docstring) is the Python
`AttributeError` on `.strip`. -/
def process_multiline_comment (comment : PyVal) : EmitM Unit := do
  match comment with
  | .vStr cs => do
    let i ← getIdent
    write ("\n" ++ i ++ "/*\n")
    writeCommentLines i (splitOnChar '\n' (pyStrip cs))
    write (i ++ "*/\n")
  | _ => throwE (.attributeError "strip")
where
  /-- The `for line in ...` write loop. -/
  writeCommentLines (i : String) : List String → EmitM Unit
    | [] => EmitM.pure ()
    | l :: rest => do
      write (i ++ l ++ "\n")
      writeCommentLines i rest

/-- `process_init_variable`: the `const` branch emits a `#define` and —
when the initializer is missing — evaluates the undefined name `node`
while building the exception, i.e. raises `NameError`; the other branch
emits `<annotation> <name> [= <value>];`. -/
def process_init_variable (walkF : WalkF) (nm : Node) (value : Option Node)
    ( annotation : Option PyVal) : EmitM Unit := do
  if annotation = some (.vStr "const") then
    write "#define "
    walkF (some nm) 0
    match value with
    | none =>
      -- `raise SourceCodeException('The constant must have a value!', node)`:
      -- `node` is not a name in scope here, so Python raises NameError.
      throwE (.nameError "node")
    | some v => do
      write " "
      walkF (some v) 0
      write "\n"
  else do
    let i ← getIdent
    write (i ++ pyStrOpt annotation ++ " ")
    walkF (some nm) 0
    match value with
    | some v => do
      write " = "
      walkF (some v) 0
    | none => EmitM.pure ()
    write ";\n"

/-- The `for name in names` loop of `process_assign_variable`. -/
def walkAssignTargets (walkF : WalkF) : List Node → EmitM Unit
  | [] => EmitM.pure ()
  | n :: rest => do
    walkF (some n) 0
    write " = "
    walkAssignTargets walkF rest

/-- `process_assign_variable`. -/
def process_assign_variable (walkF : WalkF) (names : List Node) (value : Node) :
    EmitM Unit := do
  let i ← getIdent
  write i
  walkAssignTargets walkF names
  walkF (some value) 0
  write ";\n"

/-- `process_augassign_variable`. -/
def process_augassign_variable (walkF : WalkF) (nm : Node) (value : Node)
    (operator : String) : EmitM Unit := do
  let i ← getIdent
  write i
  walkF (some nm) 0
  write (" " ++ operator ++ "= ")
  walkF (some value) 0
  write ";\n"

/-- The `for expression in body: self.walk(expression, 1)` loops. -/
def walkSeq (walkF : WalkF) : List Node → Int → EmitM Unit
  | [], _ => EmitM.pure ()
  | n :: rest, lvl => do
    walkF (some n) lvl
    walkSeq walkF rest lvl

/-- The return-annotation default of `process_def_function`:
`if annotation is None: annotation = 'void'`. -/
def annotationDefault : Option PyVal → PyVal
  | none => .vStr "void"
  | some v => v

/-- `process_def_function`: default the return annotation to `void`, render
a truthy docstring as a block comment before the signature, then emit the
signature (`void` parameter list when there are no arguments) and the body
one level deeper; the closing brace is written without indentation. -/
def process_def_function (walkF : WalkF) (nm : String) ( annotation : Option PyVal)
    (pos_args : List (Option PyVal × String)) (body : List Node)
    (docstring_comment : PyVal) : EmitM Unit := do
  let annotation : PyVal := annotationDefault annotation
  if pyTruthy docstring_comment then
    process_multiline_comment docstring_comment
  let i ← getIdent
  write (i ++ pyStr annotation ++ " " ++ nm ++ "(")
  let str_args := pos_args.map (fun p => pyStrOpt p.1 ++ " " ++ p.2)
  write (if pos_args.isEmpty then "void" else String.intercalate ", " str_args)
  write ") \x7b\n"
  walkSeq walkF body 1
  write "\x7d\n"

/-- The argument loop of `process_call_function` (`', '` between
arguments, none after the last). -/
def walkCallArgs (walkF : WalkF) : List Node → EmitM Unit
  | [] => EmitM.pure ()
  | [a] => walkF (some a) 0
  | a :: rest => do
    walkF (some a) 0
    write ", "
    walkCallArgs walkF rest

/-- `process_call_function`. -/
def process_call_function (walkF : WalkF) (nm : Node) (pos_args : List Node) :
    EmitM Unit := do
  walkF (some nm) 0
  write "("
  walkCallArgs walkF pos_args
  write ")"

/-- The loop of `process_delete_variable` (note: no indentation). -/
def process_delete_variable (walkF : WalkF) : List Node → EmitM Unit
  | [] => EmitM.pure ()
  | n :: rest => do
    write "delete "
    walkF (some n) 0
    write ";\n"
    process_delete_variable walkF rest

/-- `process_continue`. -/
def process_continue : EmitM Unit := do
  let i ← getIdent
  write (i ++ "continue;\n")

/-- `process_binary_op`. -/
def process_binary_op (walkF : WalkF) (operand_left : Node) (operator : String)
    (operand_right : Node) (is_need_brackets : Bool) : EmitM Unit := do
  if is_need_brackets then write "("
  walkF (some operand_left) 0
  write (" " ++ operator ++ " ")
  walkF (some operand_right) 0
  if is_need_brackets then write ")"

/-- `process_unary_op`. -/
def process_unary_op (walkF : WalkF) (operand : Node) (operator : String) :
    EmitM Unit := do
  write operator
  walkF (some operand) 0

/-- `process_return`. -/
def process_return (walkF : WalkF) (expression : Option Node) : EmitM Unit := do
  let i ← getIdent
  write (i ++ "return")
  match expression with
  | some e => do
    write " "
    walkF (some e) 0
  | none => EmitM.pure ()
  write ";\n"

/-- `process_while`: with a fallback clause, declare the sentinel before
the loop header and guard the fallback with `if (success == 1)` after it. -/
def process_while (walkF : WalkF) (condition : Node) (body orelse : List Node) :
    EmitM Unit := do
  if !orelse.isEmpty then
    let i ← getIdent
    write (i ++ "unsigned byte success = 1;\n")
  let i ← getIdent
  write (i ++ "while (")
  walkF (some condition) 0
  write ") \x7b\n"
  walkSeq walkF body 1
  let i2 ← getIdent
  write (i2 ++ "\x7d\n\n")
  if !orelse.isEmpty then
    let i3 ← getIdent
    write (i3 ++ "if (success == 1) \x7b\n")
    walkSeq walkF orelse 1
    let i4 ← getIdent
    write (i4 ++ "\x7d\n\n")

/-- The loop of `process_import`. -/
def importLines : List String → EmitM Unit
  | [] => EmitM.pure ()
  | m :: rest => do
    write ("#include <" ++ m.replace "." "/" ++ ".h>\n")
    importLines rest

/-- `process_import`. -/
def process_import (module_names : List String) : EmitM Unit := do
  importLines module_names
  write "\n"

/-- `process_import_from` (the imported-name list is ignored). -/
def process_import_from (module_name : String) : EmitM Unit :=
  write ("#include <" ++ module_name.replace "." "/" ++ ".h>\n\n")

/-- `process_expression`. -/
def process_expression (walkF : WalkF) (expression : Node) : EmitM Unit := do
  let i ← getIdent
  write i
  walkF (some expression) 0
  write ";\n"

/-- The `for ifelse_condition, ifelse_body in ifelses` loop of
`process_if`. -/
def walkIfelses (walkF : WalkF) : List (Node × List Node) → EmitM Unit
  | [] => EmitM.pure ()
  | (c, b) :: rest => do
    write " else if ("
    walkF (some c) 0
    write ") \x7b\n"
    walkSeq walkF b 1
    let i ← getIdent
    write (i ++ "\x7d")
    walkIfelses walkF rest

/-- `process_if`. -/
def process_if (walkF : WalkF) (condition : Node) (body : List Node)
    (ifelses : List (Node × List Node)) (orelse : List Node) : EmitM Unit := do
  let i ← getIdent
  write (i ++ "if (")
  walkF (some condition) 0
  write ") \x7b\n"
  walkSeq walkF body 1
  let i2 ← getIdent
  write (i2 ++ "\x7d")
  walkIfelses walkF ifelses
  if !orelse.isEmpty then
    write " else "
    write "\x7b\n"
    walkSeq walkF orelse 1
    let i3 ← getIdent
    write (i3 ++ "\x7d")
  write "\n\n"

/-- The `for operator, operand_right in zip(...)` loop of
`process_compare`. -/
def walkComparePairs (walkF : WalkF) : List (String × Node) → EmitM Unit
  | [] => EmitM.pure ()
  | (op, r) :: rest => do
    write (" " ++ op ++ " ")
    walkF (some r) 0
    walkComparePairs walkF rest

/-- `process_compare`. -/
def process_compare (walkF : WalkF) (operand_left : Node) (operators : List String)
    (operands_right : List Node) : EmitM Unit := do
  walkF (some operand_left) 0
  walkComparePairs walkF (operators.zip operands_right)

/-- The trailing operand loop of `process_bool_op` (note: the source writes
the remaining operands back to back, with no separator). -/
def walkBoolRights (walkF : WalkF) : List Node → EmitM Unit
  | [] => EmitM.pure ()
  | r :: rest => do
    walkF (some r) 0
    walkBoolRights walkF rest

/-- `process_bool_op`. -/
def process_bool_op (walkF : WalkF) (operand_left : Node) (operator : String)
    (operands_right : List Node) : EmitM Unit := do
  walkF (some operand_left) 0
  write (" " ++ operator ++ " ")
  walkBoolRights walkF operands_right

/-- `process_break`: set the sentinel first when the innermost loop has a
fallback clause. -/
def process_break (has_while_orelse : Bool) : EmitM Unit := do
  if has_while_orelse then
    let i ← getIdent
    write (i ++ "success = 0;\n")
  let i ← getIdent
  write (i ++ "break;\n")

/-- `process_ifexpr` (the C ternary). -/
def process_ifexpr (walkF : WalkF) (condition : Node) (body : Node)
    (orelse : Node) (is_need_brackets : Bool) : EmitM Unit := do
  if is_need_brackets then write "("
  write "("
  walkF (some condition) 0
  write ") ? "
  walkF (some body) 0
  write " : "
  walkF (some orelse) 0
  if is_need_brackets then write ")"

/-- `process_link` (the `x.link` take-address convention). -/
def process_link (walkF : WalkF) (value : Node) : EmitM Unit := do
  write "&"
  walkF (some value) 0

/-- `process_lambda` (only meaningful under a `#define`). -/
def process_lambda (walkF : WalkF) (args : List String) (body : Node) :
    EmitM Unit := do
  write ("(" ++ String.intercalate "," args ++ ") ")
  walkF (some body) 0

/-- `process_subscript`; a `None` index (non-`Index` slice) makes the inner
`walk` a no-op, so the brackets come out empty. -/
def process_subscript (walkF : WalkF) (container : Node) (index : Option Node) :
    EmitM Unit := do
  walkF (some container) 0
  write "["
  walkF index 0
  write "]"

/-! ## The dispatcher (`walk`) -/

/-- The chain-flattening loop of the `ast.If` branch:

```
ifelses = []
orelse = node.orelse
while orelse and len(orelse) == 1 and isinstance(orelse[0], ast.If):
    ifelses.append((node.orelse[0].test, node.orelse[0].body))
    orelse = node.orelse[0].orelse
    node.orelse = None
converter.process_if(...)
```

`nodeOrelse` is the mutable `node.orelse` attribute, which the loop body
sets to `None`; the loop body reads `node.orelse[0]`, so a second
iteration subscripts `None` and raises `TypeError`.  Termination: the
recursive call always passes `none` for `nodeOrelse`, and with `none` the
body can only raise. -/
def flattenIfLoop (nodeOrelse : Option (List Node)) (orelse : List Node)
    (ifelses : List (Node × List Node)) :
    Except Err (List (Node × List Node) × List Node) :=
  match orelse with
  | [Node.ifStmt _ _ _] =>
    match nodeOrelse with
    | none => .error (.pyTypeError "NoneType object is not subscriptable")
    | some l =>
      match l with
      | [] => .error (.indexError "list index out of range")
      | first :: _ =>
        match first with
        | .ifStmt t2 b2 oe2 => flattenIfLoop none oe2 (ifelses ++ [(t2, b2)])
        | _ => .error (.attributeError "test")
  | _ => .ok (ifelses, orelse)
termination_by match nodeOrelse with | none => 0 | some _ => 1

/-- Docstring extraction of the `ast.FunctionDef` branch.  When the node
has a `type_comment` attribute (every parse from Python 3.8 on) the
attribute's value is used and the body is left alone; otherwise a leading
`Expr` statement holding a `Str`/`Constant` supplies the docstring and is
marked `custom_ignore` — modelled by dropping it from the body, since the
dispatcher is a no-op on a marked node.  Returns
`(docstring_comment, body as the emitter will traverse it)`. -/
def extractDocstring (typeComment : Option (Option String)) (body : List Node) :
    PyVal × List Node :=
  match typeComment with
  | some tc =>
    (match tc with
     | none => .vNone
     | some s => .vStr s, body)
  | none =>
    match body with
    | Node.exprStmt (Node.strLit s) :: rest => (.vStr s, rest)
    | Node.exprStmt (Node.constant c) :: rest => (c, rest)
    | _ => (.vNone, body)

/-- Is the parent one of `(ast.BinOp, ast.BoolOp, ast.UnaryOp)`
(the `BinOp` parenthesization rule)? -/
def parentNeedsBinBrackets : Option Node → Bool
  | some (.binOp _ _ _) => true
  | some (.boolOp _ _) => true
  | some (.unaryOp _ _) => true
  | _ => false

/-- Is the parent one of `(ast.Call, ast.BoolOp)`
(the `IfExp` parenthesization rule)? -/
def parentNeedsIfexprBrackets : Option Node → Bool
  | some (.call _ _) => true
  | some (.boolOp _ _) => true
  | _ => false

/-- Is the parent an `ast.Module` (the standalone-string comment rule)? -/
def parentIsModule : Option Node → Bool
  | some (.module _) => true
  | _ => false

/-- The `Module` branch loop, which calls the module-level `walk` directly
(no level adjustment). -/
def walkSeqTop (walkTopF : Node → EmitM Unit) : List Node → EmitM Unit
  | [] => EmitM.pure ()
  | n :: rest => do
    walkTopF n
    walkSeqTop walkTopF rest

/-- The `isinstance` dispatch chain of `walk`, with `parent_node` already
read (before the node was pushed on `parents`).  `walkF` models
`converter.walk` (the level-adjusting method), `walkTopF` the direct
recursive `walk(converter, body_node)` call of the `Module` branch. -/
def walk_dispatch (walkF : WalkF) (walkTopF : Node → EmitM Unit)
    (parent_node : Option Node) (node : Node) : EmitM Unit :=
  match node with
  | .annAssign target ann value =>
    -- `value=node.value if node.value and not is_constant_none(node) else None`
    -- (note: the filter tests the AnnAssign node itself, not its value)
    let value2 := if value.isSome && !is_constant_none (.annAssign target ann value)
      then value else none
    match convert_annotation ann with
    | .error e => throwE e
    | .ok annv => process_init_variable walkF target value2 annv
  | .assign targets value => process_assign_variable walkF targets value
  | .augAssign target op value =>
    match convert_op op with
    | .error e => throwE e
    | .ok o => process_augassign_variable walkF target value o
  | .functionDef fname args body returns tc =>
    match convertArgs args with
    | .error e => throwE e
    | .ok pos_args =>
      match extractDocstring tc body with
      | (docstring_comment, body2) =>
        match convert_annotation returns with
        | .error e => throwE e
        | .ok rv =>
          process_def_function walkF fname rv pos_args body2 docstring_comment
  | .call f args => process_call_function walkF f args
  | .constant v => process_constant v
  | .num n => process_constant (.vInt n)
  | .strLit s => process_constant (.vStr s)
  | .name id => process_name id  -- `node.ctx` is only marked, never walked
  | .delete targets => process_delete_variable walkF targets
  | .binOp l op r =>
    match convert_op op with
    | .error e => throwE e
    | .ok o => process_binary_op walkF l o r (parentNeedsBinBrackets parent_node)
  | .boolOp op values =>
    -- `node.values[0]` is evaluated before `convert_bool_op(node.op)`
    match values with
    | [] => throwE (.indexError "list index out of range")
    | v0 :: rest =>
      match convert_bool_op op with
      | .error e => throwE e
      | .ok o => process_bool_op walkF v0 o rest
  | .unaryOp op operand =>
    match convert_unary_op op with
    | .error e => throwE e
    | .ok o => process_unary_op walkF operand o
  | .ret value => process_return walkF value
  | .ifExp test body orelse =>
    process_ifexpr walkF test body orelse (parentNeedsIfexprBrackets parent_node)
  | .ifStmt test body orelse =>
    match flattenIfLoop (some orelse) orelse [] with
    | .error e => throwE e
    | .ok (ifelses, orelse2) => process_if walkF test body ifelses orelse2
  | .whileStmt test body orelse => do
    pushHwo (!orelse.isEmpty)  -- bool(node.orelse)
    process_while walkF test body orelse
    popHwo
  | .breakStmt => do
    let ctx ← getCtx
    match ctx.hwo with  -- has_while_orelse[-1]
    | [] => throwE (.indexError "list index out of range")
    | b :: _ => process_break b
  | .continueStmt => process_continue
  | .exprStmt value =>
    match value, parentIsModule parent_node with
    | .strLit s, true => moduleComment (.vStr s)
    | .constant c, true => moduleComment c
    | v, _ => process_expression walkF v
  | .passStmt => EmitM.pure ()
  | .importStmt names => process_import names
  | .importFrom module => process_import_from module
  | .compare left ops comparators =>
    match convertCmps ops with
    | .error e => throwE e
    | .ok os => process_compare walkF left os comparators
  | .attributeN v attr =>
    -- no else branch: any other attribute spelling falls through silently
    if attr = "link" then process_link walkF v else EmitM.pure ()
  | .lambdaE args body => process_lambda walkF (args.map (fun a => a.2)) body
  | .subscript v sl =>
    match sl with
    | .indexN i => process_subscript walkF v (some i)
    | _ => process_subscript walkF v none
  | .module body => walkSeqTop walkTopF body
  | n => throwE (.sourceCode ("unknown node: " ++ kindName n))
where
  /-- The module-level comment arm of the `ast.Expr` branch: a multi-line
  string becomes a block comment; a single-line string reaches
  `converter.process_one_comment`, a method that does not exist, so Python
  raises `AttributeError`; `'\n' in comment` on a non-string raises
  `TypeError`. -/
  moduleComment (comment : PyVal) : EmitM Unit :=
    match comment with
    | .vStr s =>
      if containsChar s '\n' then process_multiline_comment (.vStr s)
      else throwE (.attributeError "process_one_comment")
    | _ => throwE (.pyTypeError "argument of type is not iterable")

/-- The fueled model of the module-level `walk(converter, node)` function:
no-op on `None` (and on a `custom_ignore`-marked node, handled
structurally), otherwise read `parent_node`, push the node on `parents`,
dispatch, and pop.  `self.walk(n, lvl)` calls re-enter through
`withLevel`. -/
def walkAux : Nat → Option Node → EmitM Unit
  | _, none => EmitM.pure ()
  | 0, some _ => throwE .outOfFuel
  | fuel + 1, some node => do
    let ctx0 ← getCtx
    pushParent node
    walk_dispatch (fun n lvl => withLevel lvl (walkAux fuel n))
      (fun n => walkAux fuel (some n))
      ctx0.parents.head? node
    popParent

/-- The `CConverter.walk` method (used in theorem statements). -/
def cwalk (fuel : Nat) (n : Option Node) (lvl : Int) : EmitM Unit :=
  withLevel lvl (walkAux fuel n)

/-- Initial context of one translation run. -/
def ctx0 : Ctx := { level := 0, hwo := [], parents := [] }

/-! ## Run equations for the monad primitives -/

theorem bind_apply (m : EmitM α) (f : α → EmitM β) (ctx : Ctx) :
    (m >>= f) ctx =
      match m ctx with
      | (s, .ok (a, c)) =>
        match f a c with
        | (s2, r) => (s ++ s2, r)
      | (s, .error e) => (s, .error e) := rfl

theorem pure_apply (a : α) (ctx : Ctx) : (EmitM.pure a) ctx = ("", .ok (a, ctx)) := rfl

theorem pureM_apply (a : α) (ctx : Ctx) : (pure a : EmitM α) ctx = ("", .ok (a, ctx)) := rfl

theorem write_apply (d : String) (ctx : Ctx) : write d ctx = (d, .ok ((), ctx)) := rfl

theorem throwE_apply (e : Err) (ctx : Ctx) : (throwE e : EmitM α) ctx = ("", .error e) := rfl

theorem getCtx_apply (ctx : Ctx) : getCtx ctx = ("", .ok (ctx, ctx)) := rfl

theorem getIdent_apply (ctx : Ctx) : getIdent ctx = ("", .ok (identStr ctx.level, ctx)) := rfl

theorem pushParent_apply (n : Node) (ctx : Ctx) :
    pushParent n ctx = ("", .ok ((), { ctx with parents := n :: ctx.parents })) := rfl

theorem popParent_apply (ctx : Ctx) :
    popParent ctx = ("", .ok ((), { ctx with parents := ctx.parents.tail })) := rfl

theorem pushHwo_apply (b : Bool) (ctx : Ctx) :
    pushHwo b ctx = ("", .ok ((), { ctx with hwo := b :: ctx.hwo })) := rfl

theorem popHwo_apply (ctx : Ctx) :
    popHwo ctx = ("", .ok ((), { ctx with hwo := ctx.hwo.tail })) := rfl

/-! ## Preservation of the traversal state

Every emission routine that returns normally leaves `level`, the
`has_while_orelse` stack and the `parents` stack exactly as it found them
(`walk` restores the level, the `While` branch pops what it pushed, and the
dispatcher pops the parent it pushed). -/

/-- `m` preserves the context on every normal return. -/
def Pres {α : Type} (m : EmitM α) : Prop :=
  ∀ ctx s a c2, m ctx = (s, Except.ok (a, c2)) →
    c2.level = ctx.level ∧ c2.hwo = ctx.hwo ∧ c2.parents = ctx.parents

theorem pres_pure (a : α) : Pres (EmitM.pure a) := by
  intro ctx s b c2 h
  simp only [pure_apply, Prod.mk.injEq, Except.ok.injEq] at h
  obtain ⟨-, -, h2⟩ := h
  subst h2
  exact ⟨rfl, rfl, rfl⟩

theorem pres_write (d : String) : Pres (write d) := by
  intro ctx s a c2 h
  simp only [write_apply, Prod.mk.injEq, Except.ok.injEq] at h
  obtain ⟨-, -, h2⟩ := h
  subst h2
  exact ⟨rfl, rfl, rfl⟩

theorem pres_throwE (e : Err) : Pres (throwE e : EmitM α) := by
  intro ctx s a c2 h
  simp only [throwE_apply, Prod.mk.injEq] at h
  exact absurd h.2 (by simp)

theorem pres_getCtx : Pres getCtx := by
  intro ctx s a c2 h
  simp only [getCtx_apply, Prod.mk.injEq, Except.ok.injEq] at h
  obtain ⟨-, -, h2⟩ := h
  subst h2
  exact ⟨rfl, rfl, rfl⟩

theorem pres_getIdent : Pres getIdent := by
  intro ctx s a c2 h
  simp only [getIdent_apply, Prod.mk.injEq, Except.ok.injEq] at h
  obtain ⟨-, -, h2⟩ := h
  subst h2
  exact ⟨rfl, rfl, rfl⟩

theorem pres_bind {m : EmitM α} {f : α → EmitM β} (hm : Pres m)
    (hf : ∀ a, Pres (f a)) : Pres (m >>= f) := by
  intro ctx s b c2 h
  rw [bind_apply] at h
  cases hm1 : m ctx with
  | mk s1 r1 =>
    rw [hm1] at h
    cases r1 with
    | error e => simp at h
    | ok ac =>
      obtain ⟨a1, c1⟩ := ac
      dsimp only at h
      cases hf1 : f a1 c1 with
      | mk s2 r2 =>
        rw [hf1] at h
        cases r2 with
        | error e => simp at h
        | ok bc =>
          obtain ⟨b1, c3⟩ := bc
          simp only [Prod.mk.injEq, Except.ok.injEq] at h
          obtain ⟨-, -, h3⟩ := h
          subst h3
          have h1 := hm ctx s1 a1 c1 hm1
          have h2 := hf a1 c1 s2 b1 c3 hf1
          exact ⟨h2.1.trans h1.1, h2.2.1.trans h1.2.1, h2.2.2.trans h1.2.2⟩

theorem pres_ite (c : Prop) [Decidable c] {m m2 : EmitM α} (h1 : Pres m)
    (h2 : Pres m2) : Pres (if c then m else m2) := by
  split
  · exact h1
  · exact h2

theorem pres_withLevel {m : EmitM Unit} (hm : Pres m) (lvl : Int) :
    Pres (withLevel lvl m) := by
  intro ctx s a c2 h
  unfold withLevel at h
  cases hr : m { ctx with level := ctx.level + lvl } with
  | mk s1 r1 =>
    rw [hr] at h
    cases r1 with
    | error e => simp only [Prod.mk.injEq] at h; exact absurd h.2 (by simp)
    | ok ac =>
      obtain ⟨a1, c1⟩ := ac
      simp only [Prod.mk.injEq, Except.ok.injEq] at h
      obtain ⟨-, -, h3⟩ := h
      subst h3
      have h1 := hm _ _ _ _ hr
      refine ⟨?_, h1.2.1, h1.2.2⟩
      have : c1.level = ctx.level + lvl := h1.1
      simp [this]

section PresRoutines

variable {walkF : WalkF}

theorem pres_process_constant (v : PyVal) : Pres (process_constant v) := by
  cases v with
  | vNone => exact pres_throwE _
  | vStr s => exact pres_write _
  | vBool b => exact pres_write _
  | vInt n => exact pres_write _

theorem pres_process_name (nm : String) : Pres (process_name nm) := pres_write nm

theorem pres_process_oneline_comment (c : String) : Pres (process_oneline_comment c) :=
  pres_bind pres_getIdent fun _ => pres_write _

theorem pres_writeCommentLines (i : String) :
    ∀ ls, Pres (process_multiline_comment.writeCommentLines i ls)
  | [] => pres_pure _
  | _ :: rest => pres_bind (pres_write _) fun _ => pres_writeCommentLines i rest

theorem pres_process_multiline_comment (c : PyVal) :
    Pres (process_multiline_comment c) := by
  cases c with
  | vStr s =>
    exact pres_bind pres_getIdent fun i => pres_bind (pres_write _) fun _ =>
      pres_bind (pres_writeCommentLines _ _) fun _ => pres_write _
  | vNone => exact pres_throwE _
  | vBool b => exact pres_throwE _
  | vInt n => exact pres_throwE _

theorem pres_process_init_variable (hW : ∀ n lvl, Pres (walkF n lvl))
    (nm : Node) (value : Option Node) ( annotation : Option PyVal) :
    Pres (process_init_variable walkF nm value annotation) := by
  unfold process_init_variable
  split <;> cases value <;> dsimp only <;>
  repeat'
    first
    | exact pres_getIdent
    | exact pres_write _
    | exact pres_throwE _
    | exact pres_pure _
    | exact hW _ _
    | apply pres_bind
    | intro _

theorem pres_walkAssignTargets (hW : ∀ n lvl, Pres (walkF n lvl)) :
    ∀ l, Pres (walkAssignTargets walkF l)
  | [] => pres_pure _
  | _ :: rest => pres_bind (hW _ _) fun _ => pres_bind (pres_write _) fun _ =>
      pres_walkAssignTargets hW rest

theorem pres_process_assign_variable (hW : ∀ n lvl, Pres (walkF n lvl))
    (names : List Node) (value : Node) :
    Pres (process_assign_variable walkF names value) :=
  pres_bind pres_getIdent fun _ => pres_bind (pres_write _) fun _ =>
    pres_bind (pres_walkAssignTargets hW names) fun _ =>
    pres_bind (hW _ _) fun _ => pres_write _

theorem pres_process_augassign_variable (hW : ∀ n lvl, Pres (walkF n lvl))
    (nm value : Node) (op : String) :
    Pres (process_augassign_variable walkF nm value op) :=
  pres_bind pres_getIdent fun _ => pres_bind (pres_write _) fun _ =>
    pres_bind (hW _ _) fun _ => pres_bind (pres_write _) fun _ =>
    pres_bind (hW _ _) fun _ => pres_write _

theorem pres_walkSeq (hW : ∀ n lvl, Pres (walkF n lvl)) :
    ∀ l lvl, Pres (walkSeq walkF l lvl)
  | [], _ => pres_pure _
  | _ :: rest, lvl => pres_bind (hW _ _) fun _ => pres_walkSeq hW rest lvl

theorem pres_process_def_function (hW : ∀ n lvl, Pres (walkF n lvl))
    (nm : String) ( annotation : Option PyVal) (pos_args : List (Option PyVal × String))
    (body : List Node) (dc : PyVal) :
    Pres (process_def_function walkF nm annotation pos_args body dc) := by
  unfold process_def_function
  repeat'
    first
    | exact pres_getIdent
    | exact pres_write _
    | exact pres_throwE _
    | exact pres_pure _
    | exact pres_process_multiline_comment _
    | exact pres_walkSeq hW _ _
    | apply pres_bind
    | apply pres_ite
    | intro _

theorem pres_walkCallArgs (hW : ∀ n lvl, Pres (walkF n lvl)) :
    ∀ l, Pres (walkCallArgs walkF l)
  | [] => pres_pure _
  | [_] => hW _ _
  | _ :: a :: rest => pres_bind (hW _ _) fun _ => pres_bind (pres_write _) fun _ =>
      pres_walkCallArgs hW (a :: rest)

theorem pres_process_call_function (hW : ∀ n lvl, Pres (walkF n lvl))
    (nm : Node) (args : List Node) : Pres (process_call_function walkF nm args) :=
  pres_bind (hW _ _) fun _ => pres_bind (pres_write _) fun _ =>
    pres_bind (pres_walkCallArgs hW args) fun _ => pres_write _

theorem pres_process_delete_variable (hW : ∀ n lvl, Pres (walkF n lvl)) :
    ∀ l, Pres (process_delete_variable walkF l)
  | [] => pres_pure _
  | _ :: rest => pres_bind (pres_write _) fun _ => pres_bind (hW _ _) fun _ =>
      pres_bind (pres_write _) fun _ => pres_process_delete_variable hW rest

theorem pres_process_continue : Pres process_continue :=
  pres_bind pres_getIdent fun _ => pres_write _

theorem pres_process_binary_op (hW : ∀ n lvl, Pres (walkF n lvl))
    (l : Node) (op : String) (r : Node) (b : Bool) :
    Pres (process_binary_op walkF l op r b) := by
  unfold process_binary_op
  repeat'
    first
    | exact pres_write _
    | exact pres_pure _
    | exact hW _ _
    | apply pres_bind
    | apply pres_ite
    | intro _

theorem pres_process_unary_op (hW : ∀ n lvl, Pres (walkF n lvl))
    (operand : Node) (op : String) : Pres (process_unary_op walkF operand op) :=
  pres_bind (pres_write _) fun _ => hW _ _

theorem pres_process_return (hW : ∀ n lvl, Pres (walkF n lvl))
    (e : Option Node) : Pres (process_return walkF e) := by
  unfold process_return
  cases e <;> dsimp only <;>
  repeat'
    first
    | exact pres_getIdent
    | exact pres_write _
    | exact pres_pure _
    | exact hW _ _
    | apply pres_bind
    | intro _

theorem pres_process_while (hW : ∀ n lvl, Pres (walkF n lvl))
    (t : Node) (b oe : List Node) : Pres (process_while walkF t b oe) := by
  unfold process_while
  repeat'
    first
    | exact pres_getIdent
    | exact pres_write _
    | exact pres_pure _
    | exact hW _ _
    | exact pres_walkSeq hW _ _
    | apply pres_bind
    | apply pres_ite
    | intro _

theorem pres_importLines : ∀ l, Pres (importLines l)
  | [] => pres_pure _
  | _ :: rest => pres_bind (pres_write _) fun _ => pres_importLines rest

theorem pres_process_import (names : List String) : Pres (process_import names) :=
  pres_bind (pres_importLines names) fun _ => pres_write _

theorem pres_process_import_from (m : String) : Pres (process_import_from m) :=
  pres_write _

theorem pres_process_expression (hW : ∀ n lvl, Pres (walkF n lvl))
    (e : Node) : Pres (process_expression walkF e) :=
  pres_bind pres_getIdent fun _ => pres_bind (pres_write _) fun _ =>
    pres_bind (hW _ _) fun _ => pres_write _

theorem pres_walkIfelses (hW : ∀ n lvl, Pres (walkF n lvl)) :
    ∀ l, Pres (walkIfelses walkF l)
  | [] => pres_pure _
  | (_, _) :: rest => pres_bind (pres_write _) fun _ => pres_bind (hW _ _) fun _ =>
      pres_bind (pres_write _) fun _ => pres_bind (pres_walkSeq hW _ 1) fun _ =>
      pres_bind pres_getIdent fun _ => pres_bind (pres_write _) fun _ =>
      pres_walkIfelses hW rest

theorem pres_process_if (hW : ∀ n lvl, Pres (walkF n lvl))
    (c : Node) (body : List Node) (ifelses : List (Node × List Node))
    (orelse : List Node) : Pres (process_if walkF c body ifelses orelse) := by
  unfold process_if
  repeat'
    first
    | exact pres_getIdent
    | exact pres_write _
    | exact pres_pure _
    | exact hW _ _
    | exact pres_walkSeq hW _ _
    | exact pres_walkIfelses hW _
    | apply pres_bind
    | apply pres_ite
    | intro _

theorem pres_walkComparePairs (hW : ∀ n lvl, Pres (walkF n lvl)) :
    ∀ l, Pres (walkComparePairs walkF l)
  | [] => pres_pure _
  | (_, _) :: rest => pres_bind (pres_write _) fun _ => pres_bind (hW _ _) fun _ =>
      pres_walkComparePairs hW rest

theorem pres_process_compare (hW : ∀ n lvl, Pres (walkF n lvl))
    (l : Node) (ops : List String) (rs : List Node) :
    Pres (process_compare walkF l ops rs) :=
  pres_bind (hW _ _) fun _ => pres_walkComparePairs hW _

theorem pres_walkBoolRights (hW : ∀ n lvl, Pres (walkF n lvl)) :
    ∀ l, Pres (walkBoolRights walkF l)
  | [] => pres_pure _
  | _ :: rest => pres_bind (hW _ _) fun _ => pres_walkBoolRights hW rest

theorem pres_process_bool_op (hW : ∀ n lvl, Pres (walkF n lvl))
    (l : Node) (op : String) (rs : List Node) :
    Pres (process_bool_op walkF l op rs) :=
  pres_bind (hW _ _) fun _ => pres_bind (pres_write _) fun _ =>
    pres_walkBoolRights hW rs

theorem pres_process_break (b : Bool) : Pres (process_break b) := by
  unfold process_break
  repeat'
    first
    | exact pres_getIdent
    | exact pres_write _
    | exact pres_pure _
    | apply pres_bind
    | apply pres_ite
    | intro _

theorem pres_process_ifexpr (hW : ∀ n lvl, Pres (walkF n lvl))
    (c b oe : Node) (k : Bool) : Pres (process_ifexpr walkF c b oe k) := by
  unfold process_ifexpr
  repeat'
    first
    | exact pres_write _
    | exact pres_pure _
    | exact hW _ _
    | apply pres_bind
    | apply pres_ite
    | intro _

theorem pres_process_link (hW : ∀ n lvl, Pres (walkF n lvl)) (v : Node) :
    Pres (process_link walkF v) :=
  pres_bind (pres_write _) fun _ => hW _ _

theorem pres_process_lambda (hW : ∀ n lvl, Pres (walkF n lvl))
    (args : List String) (b : Node) : Pres (process_lambda walkF args b) :=
  pres_bind (pres_write _) fun _ => hW _ _

theorem pres_process_subscript (hW : ∀ n lvl, Pres (walkF n lvl))
    (v : Node) (i : Option Node) : Pres (process_subscript walkF v i) :=
  pres_bind (hW _ _) fun _ => pres_bind (pres_write _) fun _ =>
    pres_bind (hW _ _) fun _ => pres_write _

theorem pres_walkSeqTop {walkTopF : Node → EmitM Unit}
    (hT : ∀ n, Pres (walkTopF n)) : ∀ l, Pres (walkSeqTop walkTopF l)
  | [] => pres_pure _
  | _ :: rest => pres_bind (hT _) fun _ => pres_walkSeqTop hT rest

theorem pres_moduleComment (c : PyVal) : Pres (walk_dispatch.moduleComment c) := by
  cases c with
  | vStr s => exact pres_ite _ (pres_process_multiline_comment _) (pres_throwE _)
  | vNone => exact pres_throwE _
  | vBool b => exact pres_throwE _
  | vInt n => exact pres_throwE _

theorem bindE_apply (m : EmitM α) (f : α → EmitM β) (ctx : Ctx) :
    EmitM.bind m f ctx =
      match m ctx with
      | (s, .ok (a, c)) =>
        match f a c with
        | (s2, r) => (s ++ s2, r)
      | (s, .error e) => (s, .error e) := rfl

theorem pres_hwo_wrap {m : EmitM Unit} (hm : Pres m) (b : Bool) :
    Pres (pushHwo b >>= fun _ => m >>= fun _ => popHwo) := by
  intro ctx s a c2 h
  cases hr : m { ctx with hwo := b :: ctx.hwo } with
  | mk s1 r1 =>
    simp only [bind_apply, bindE_apply, pushHwo_apply, popHwo_apply, hr] at h
    cases r1 with
    | error e => simp at h
    | ok ac =>
      obtain ⟨a1, c1⟩ := ac
      simp only [popHwo_apply, Prod.mk.injEq, Except.ok.injEq] at h
      obtain ⟨-, -, h3⟩ := h
      subst h3
      have h1 := hm _ _ _ _ hr
      refine ⟨h1.1, ?_, h1.2.2⟩
      show c1.hwo.tail = ctx.hwo
      rw [h1.2.1]
      rfl

end PresRoutines

/-- Preservation for the dispatch chain, given preservation of the walker
it re-enters through. -/
theorem pres_walk_dispatch {walkF : WalkF} {walkTopF : Node → EmitM Unit}
    (hW : ∀ n lvl, Pres (walkF n lvl)) (hT : ∀ n, Pres (walkTopF n))
    (p : Option Node) (node : Node) :
    Pres (walk_dispatch walkF walkTopF p node) := by
  cases node with
  | annAssign t a v =>
    show Pres (match convert_annotation a with
      | .error e => throwE e
      | .ok annv => process_init_variable walkF t _ annv)
    cases convert_annotation a with
    | error e => exact pres_throwE _
    | ok annv => exact pres_process_init_variable hW _ _ _
  | assign t v => exact pres_process_assign_variable hW _ _
  | augAssign t op v =>
    show Pres (match convert_op op with
      | .error e => throwE e
      | .ok o => process_augassign_variable walkF t v o)
    cases convert_op op with
    | error e => exact pres_throwE _
    | ok o => exact pres_process_augassign_variable hW _ _ _
  | functionDef nm args body returns tc =>
    show Pres (match convertArgs args with
      | .error e => throwE e
      | .ok pos_args =>
        match extractDocstring tc body with
        | (dc, body2) =>
          match convert_annotation returns with
          | .error e => throwE e
          | .ok rv => process_def_function walkF nm rv pos_args body2 dc)
    cases convertArgs args with
    | error e => exact pres_throwE _
    | ok pos_args =>
      cases extractDocstring tc body with
      | mk dc body2 =>
        cases convert_annotation returns with
        | error e => exact pres_throwE _
        | ok rv => exact pres_process_def_function hW _ _ _ _ _
  | call f args => exact pres_process_call_function hW _ _
  | constant v => exact pres_process_constant _
  | num n => exact pres_process_constant (.vInt n)
  | strLit s => exact pres_process_constant (.vStr s)
  | name id => exact pres_process_name _
  | delete targets => exact pres_process_delete_variable hW _
  | binOp l op r =>
    show Pres (match convert_op op with
      | .error e => throwE e
      | .ok o => process_binary_op walkF l o r (parentNeedsBinBrackets p))
    cases convert_op op with
    | error e => exact pres_throwE _
    | ok o => exact pres_process_binary_op hW _ _ _ _
  | boolOp op values =>
    cases values with
    | nil => exact pres_throwE _
    | cons v0 rest =>
      show Pres (match convert_bool_op op with
        | .error e => throwE e
        | .ok o => process_bool_op walkF v0 o rest)
      cases convert_bool_op op with
      | error e => exact pres_throwE _
      | ok o => exact pres_process_bool_op hW _ _ _
  | unaryOp op operand =>
    show Pres (match convert_unary_op op with
      | .error e => throwE e
      | .ok o => process_unary_op walkF operand o)
    cases convert_unary_op op with
    | error e => exact pres_throwE _
    | ok o => exact pres_process_unary_op hW _ _
  | ret v => exact pres_process_return hW _
  | ifExp t b oe => exact pres_process_ifexpr hW _ _ _ _
  | ifStmt t b oe =>
    show Pres (match flattenIfLoop (some oe) oe [] with
      | .error e => throwE e
      | .ok (ifelses, orelse2) => process_if walkF t b ifelses orelse2)
    cases flattenIfLoop (some oe) oe [] with
    | error e => exact pres_throwE _
    | ok pr =>
      cases pr with
      | mk ifelses orelse2 => exact pres_process_if hW _ _ _ _
  | whileStmt t b oe =>
    exact pres_hwo_wrap (pres_process_while hW _ _ _) _
  | breakStmt =>
    refine pres_bind pres_getCtx fun c => ?_
    cases c.hwo with
    | nil => exact pres_throwE _
    | cons b rest => exact pres_process_break _
  | continueStmt => exact pres_process_continue
  | exprStmt v =>
    show Pres (match v, parentIsModule p with
      | .strLit s, true => walk_dispatch.moduleComment (.vStr s)
      | .constant c, true => walk_dispatch.moduleComment c
      | v, _ => process_expression walkF v)
    split
    · exact pres_moduleComment _
    · exact pres_moduleComment _
    · exact pres_process_expression hW _
  | passStmt => exact pres_pure _
  | importStmt names => exact pres_process_import _
  | importFrom m => exact pres_process_import_from _
  | compare l ops rs =>
    show Pres (match convertCmps ops with
      | .error e => throwE e
      | .ok os => process_compare walkF l os rs)
    cases convertCmps ops with
    | error e => exact pres_throwE _
    | ok os => exact pres_process_compare hW _ _ _
  | attributeN v attr =>
    exact pres_ite _ (pres_process_link hW _) (pres_pure _)
  | lambdaE args b => exact pres_process_lambda hW _ _
  | subscript v sl =>
    show Pres (match sl with
      | .indexN i => process_subscript walkF v (some i)
      | _ => process_subscript walkF v none)
    split
    · exact pres_process_subscript hW _ _
    · exact pres_process_subscript hW _ _
  | module body => exact pres_walkSeqTop hT _
  | indexN v => exact pres_throwE _
  | sliceN a b c => exact pres_throwE _
  | unknownKind s => exact pres_throwE _

/-- Preservation for the `walk` wrapper: read the parent, push, dispatch,
pop. -/
theorem pres_walk_wrap {node : Node} {f : Ctx → EmitM Unit}
    (hf : ∀ c, Pres (f c)) :
    Pres (getCtx >>= fun c => pushParent node >>= fun _ => f c >>= fun _ => popParent) := by
  intro ctx s a c2 h
  cases hr : f ctx { ctx with parents := node :: ctx.parents } with
  | mk s1 r1 =>
    simp only [bind_apply, bindE_apply, getCtx_apply, pushParent_apply,
      popParent_apply, hr] at h
    cases r1 with
    | error e => simp at h
    | ok ac =>
      obtain ⟨a1, c1⟩ := ac
      simp only [popParent_apply, Prod.mk.injEq, Except.ok.injEq] at h
      obtain ⟨-, -, h3⟩ := h
      subst h3
      have h1 := hf ctx _ _ _ _ hr
      refine ⟨h1.1, h1.2.1, ?_⟩
      show c1.parents.tail = ctx.parents
      rw [h1.2.2]
      rfl

/-- The dispatcher preserves `level`, the fallback stack and the ancestor
stack on every normal return, for every fuel. -/
theorem pres_walkAux : ∀ (fuel : Nat) (n : Option Node), Pres (walkAux fuel n) := by
  intro fuel
  induction fuel with
  | zero =>
    intro n
    cases n with
    | none => exact pres_pure _
    | some node => exact pres_throwE _
  | succ fuel ih =>
    intro n
    cases n with
    | none => exact pres_pure _
    | some node =>
      exact pres_walk_wrap fun c =>
        pres_walk_dispatch (fun n lvl => pres_withLevel (ih n) lvl)
          (fun n => ih (some n)) _ _

/-! ## Claim theorems -/

/-- C3: for every node on which the dispatcher returns normally, the
Emission Context's indentation level after the call equals its level before
the call, at every fuel and in every starting context — translation never
leaks indentation state. -/
theorem walk_level_preserved (fuel : Nat) (n : Option Node) (ctx : Ctx)
    (s : String) (a : Unit) (c2 : Ctx)
    (h : walkAux fuel n ctx = (s, Except.ok (a, c2))) : c2.level = ctx.level :=
  (pres_walkAux fuel n ctx s a c2 h).1

/-- Witness for C3: a concrete run at indentation level 2 ends at level 2. -/
theorem walk_level_preserved_witness : (2 : Int) = 2 :=
  walk_level_preserved 3 (some (Node.name "x"))
    { level := 2, hwo := [], parents := [] } "x" ()
    { level := 2, hwo := [], parents := [] } rfl

/-- C10: dispatching a `break` while the per-loop fallback stack is empty
(no enclosing `while`) reads the top of an empty list and fails with the
generic `IndexError`, not with any of the translator's own exceptions. -/
theorem break_empty_stack_indexerror (fuel : Nat) (ctx : Ctx) (h : ctx.hwo = []) :
    walkAux (fuel + 1) (some Node.breakStmt) ctx =
      ("", .error (.indexError "list index out of range")) := by
  simp only [walkAux, walk_dispatch, bind_apply, bindE_apply, getCtx_apply,
    pushParent_apply, throwE_apply, h, String.empty_append]

/-- Witness for C10: a `break` at module top level (initial context). -/
theorem break_empty_stack_indexerror_witness :
    walkAux 1 (some Node.breakStmt) ctx0 =
      ("", .error (.indexError "list index out of range")) :=
  break_empty_stack_indexerror 0 ctx0 rfl

/-- C9: a `None` literal is categorically rejected with
`NoneIsNotAllowedException` wherever it is dispatched (first conjunct), the
`is_constant_none` filter of the `AnnAssign` branch never fires because it
inspects the `AnnAssign` node itself (second conjunct), so a `None`
initializer of an annotated declaration still reaches `process_constant`
and aborts the translation (third conjunct). -/
theorem none_literal_rejected :
    (∀ (fuel : Nat) (ctx : Ctx),
      walkAux (fuel + 1) (some (Node.constant .vNone)) ctx =
        ("", .error (.noneNotAllowed "None is forbidden")))
  ∧ (∀ (t : Node) (a v : Option Node),
      is_constant_none (Node.annAssign t a v) = false)
  ∧ (∀ (fuel : Nat) (vn : String) (ctx : Ctx),
      walkAux (fuel + 2) (some (Node.annAssign (Node.name vn)
          (some (Node.name "int")) (some (Node.constant .vNone)))) ctx =
        (identStr ctx.level ++ "int" ++ " " ++ vn ++ " = ",
          .error (.noneNotAllowed "None is forbidden"))) := by
  refine ⟨fun fuel ctx => rfl, fun t a v => rfl, fun fuel vn ctx => ?_⟩
  simp [walkAux, walk_dispatch, process_init_variable, process_name,
    process_constant, convert_annotation, is_constant_none, pyStrOpt, pyStr,
    bind_apply, bindE_apply, getCtx_apply, getIdent_apply, pushParent_apply,
    popParent_apply, write_apply, throwE_apply, withLevel, pure_apply,
    EmitM.pure, String.append_assoc]

/-- C5 (code bug): an annotated declaration whose annotation resolves to
`'const'` and whose initializer is absent writes `#define <name>` and then
aborts — but with the builtin `NameError` (the `raise` statement references
the undefined name `node`), not with the `SourceCodeException` the spec
describes. -/
theorem const_missing_initializer_nameerror (fuel : Nat) (vn : String) (ctx : Ctx) :
    walkAux (fuel + 2) (some (Node.annAssign (Node.name vn)
        (some (Node.name "const")) none)) ctx =
      ("#define " ++ vn, .error (.nameError "node")) := by
  simp [walkAux, walk_dispatch, process_init_variable, process_name,
    convert_annotation, is_constant_none, bind_apply, bindE_apply,
    getCtx_apply, getIdent_apply, pushParent_apply, popParent_apply,
    write_apply, throwE_apply, withLevel, pure_apply, EmitM.pure,
    String.append_assoc]

/-- C4 (amended): a node kind the dispatcher has no branch for aborts with
the unknown-node `SourceCodeException`; but an attribute-access node whose
attribute is not the recognized `link` spelling is silently skipped — the
branch has no else, so the node produces no output and no error. -/
theorem unknown_node_aborts_attribute_skipped :
    (∀ (cn : String) (fuel : Nat) (ctx : Ctx),
      walkAux (fuel + 1) (some (Node.unknownKind cn)) ctx =
        ("", .error (.sourceCode ("unknown node: " ++ cn))))
  ∧ (∀ (v : Node) (attr : String) (fuel : Nat) (ctx : Ctx), attr ≠ "link" →
      walkAux (fuel + 1) (some (Node.attributeN v attr)) ctx =
        ("", .ok ((), ctx))) := by
  refine ⟨fun cn fuel ctx => rfl, fun v attr fuel ctx ha => ?_⟩
  simp [walkAux, walk_dispatch, bind_apply, bindE_apply, getCtx_apply,
    pushParent_apply, popParent_apply, pure_apply, EmitM.pure, ha]

/-- Witness for C4's amended claim. -/
theorem unknown_node_aborts_attribute_skipped_witness :
    walkAux 5 (some (Node.attributeN (Node.name "x") "foo")) ctx0 =
      ("", .ok ((), ctx0)) :=
  unknown_node_aborts_attribute_skipped.2 (Node.name "x") "foo" 4 ctx0 (by decide)

/-- Counterexample to C4 as stated: an attribute-access node other than the
`x.link` spelling does not abort the translation — the run returns normally
with no output at all, in particular not with the unknown-node error. -/
theorem c4_attribute_not_aborted :
    walkAux 5 (some (Node.attributeN (Node.name "x") "foo")) ctx0 =
      ("", .ok ((), ctx0))
    ∧ (walkAux 5 (some (Node.attributeN (Node.name "x") "foo")) ctx0).2 ≠
      Except.error (Err.sourceCode "unknown node: Attribute") := by
  constructor
  · rfl
  · intro hcontra
    rw [show (walkAux 5 (some (Node.attributeN (Node.name "x") "foo")) ctx0).2 =
      Except.ok ((), ctx0) from rfl] at hcontra
    simp at hcontra

/-- C6 (code bug): a standalone single-line string at module top level
reaches `converter.process_one_comment`, a method that does not exist
(the defined method is `process_oneline_comment`), so the translation dies
with `AttributeError` instead of emitting `// text`; a multi-line string
does reach `process_multiline_comment` and becomes a block comment. -/
theorem module_comment_attributeerror :
    walkAux 20 (some (Node.module [Node.exprStmt (Node.constant (.vStr "hello"))])) ctx0 =
      ("", .error (.attributeError "process_one_comment"))
  ∧ walkAux 20 (some (Node.module [Node.exprStmt (Node.constant (.vStr "a\nb"))])) ctx0 =
      ("\n/*\na\nb\n*/\n", .ok ((), ctx0)) := by
  exact ⟨rfl, rfl⟩

/-- Counterexample to C7 as stated: a subscript whose slice is a slice
expression does not fail at the dispatcher — it succeeds and emits
`x[]`. -/
theorem c7_slice_not_rejected :
    walkAux 5 (some (Node.subscript (Node.name "x") (Node.sliceN none none none))) ctx0 =
      ("x[]", .ok ((), ctx0)) := rfl

/-- Counterexample to C8 as stated: when the `FunctionDef` node carries the
`type_comment` attribute (every parse from Python 3.8 on; its value is
`None`), the leading string literal is not extracted: no block comment is
emitted and the docstring is emitted inside the braces as the statement
`"doc";`. -/
theorem c8_docstring_left_in_body :
    walkAux 20 (some (Node.functionDef "f" [] [Node.exprStmt (Node.strLit "doc")]
        none (some none))) ctx0 =
      ("void f(void) \x7b\n    \x22doc\x22;\n\x7d\n", .ok ((), ctx0)) := rfl

/-- C1 (code bug): translating an if/elif chain of depth 3 (or deeper)
never succeeds: the flattening loop assigned `node.orelse = None` in its
first iteration, so its second iteration evaluates `node.orelse[0]` and
raises `TypeError`, before any text of the conditional is written. -/
theorem if_chain_depth3_typeerror (fuel : Nat) (t1 t2 t3 : Node)
    (b1 b2 b3 oe3 : List Node) (ctx : Ctx) :
    walkAux (fuel + 1) (some (Node.ifStmt t1 b1
        [Node.ifStmt t2 b2 [Node.ifStmt t3 b3 oe3]])) ctx =
      ("", .error (.pyTypeError "NoneType object is not subscriptable")) := by
  simp [walkAux, walk_dispatch, flattenIfLoop, bind_apply, bindE_apply,
    getCtx_apply, pushParent_apply, throwE_apply, String.empty_append]

/-! ## Closed form of the block-comment writer -/

/-- The text written by the line loop of `process_multiline_comment`. -/
def joinCommentLines (i : String) : List String → String
  | [] => ""
  | l :: rest => i ++ l ++ "\n" ++ joinCommentLines i rest

/-- The full text written by `process_multiline_comment` for a string. -/
def mlcText (lvl : Int) (cs : String) : String :=
  "\n" ++ identStr lvl ++ "/*\n"
    ++ joinCommentLines (identStr lvl) (splitOnChar '\n' (pyStrip cs))
    ++ identStr lvl ++ "*/\n"

theorem writeCommentLines_run (i : String) (ls : List String) (ctx : Ctx) :
    process_multiline_comment.writeCommentLines i ls ctx =
      (joinCommentLines i ls, .ok ((), ctx)) := by
  induction ls with
  | nil => rfl
  | cons l rest ih =>
    simp only [process_multiline_comment.writeCommentLines, joinCommentLines,
      bind_apply, bindE_apply, write_apply, ih]

theorem process_multiline_comment_run (cs : String) (ctx : Ctx) :
    process_multiline_comment (.vStr cs) ctx =
      (mlcText ctx.level cs, .ok ((), ctx)) := by
  unfold process_multiline_comment mlcText
  simp only [bind_apply, bindE_apply, getIdent_apply, write_apply,
    writeCommentLines_run, String.append_assoc, String.append_empty,
    String.empty_append]

/-! ## Closed form of the break emission -/

theorem break_run_true (fuel : Nat) (ctx : Ctx) (rest : List Bool)
    (h : ctx.hwo = true :: rest) :
    walkAux (fuel + 1) (some Node.breakStmt) ctx =
      (identStr ctx.level ++ "success = 0;\n" ++ (identStr ctx.level ++ "break;\n"),
        .ok ((), ctx)) := by
  obtain ⟨lvl, hwo, ps⟩ := ctx
  dsimp only at h
  subst h
  simp [walkAux, walk_dispatch, process_break, bind_apply, bindE_apply,
    getCtx_apply, getIdent_apply, pushParent_apply, popParent_apply,
    write_apply, pure_apply, pureM_apply, EmitM.pure, String.append_assoc]

theorem break_run_false (fuel : Nat) (ctx : Ctx) (rest : List Bool)
    (h : ctx.hwo = false :: rest) :
    walkAux (fuel + 1) (some Node.breakStmt) ctx =
      (identStr ctx.level ++ "break;\n", .ok ((), ctx)) := by
  obtain ⟨lvl, hwo, ps⟩ := ctx
  dsimp only at h
  subst h
  simp [walkAux, walk_dispatch, process_break, bind_apply, bindE_apply,
    getCtx_apply, getIdent_apply, pushParent_apply, popParent_apply,
    write_apply, pure_apply, pureM_apply, EmitM.pure, String.append_assoc]

/-- Shape of a successful `process_while` run when the loop has a fallback
clause: sentinel declaration, loop header, body, closing brace, guarded
fallback block — with every sub-walk run from the state the previous one
left, and no state leaking between them. -/
theorem process_while_run {walkF : WalkF} (hW : ∀ n lvl, Pres (walkF n lvl))
    (t : Node) (b : List Node) (o1 : Node) (orest : List Node) (ctx : Ctx)
    (s : String) (c2 : Ctx)
    (h : process_while walkF t b (o1 :: orest) ctx = (s, Except.ok ((), c2))) :
    ∃ sc sb so cc cb,
      walkF (some t) 0 ctx = (sc, .ok ((), cc)) ∧
      walkSeq walkF b 1 cc = (sb, .ok ((), cb)) ∧
      walkSeq walkF (o1 :: orest) 1 cb = (so, .ok ((), c2)) ∧
      cc.hwo = ctx.hwo ∧ cb.hwo = ctx.hwo ∧
      s = identStr ctx.level ++ "unsigned byte success = 1;\n"
        ++ (identStr ctx.level ++ "while (") ++ sc ++ ") \x7b\n"
        ++ sb ++ (identStr ctx.level ++ "\x7d\n\n")
        ++ (identStr ctx.level ++ "if (success == 1) \x7b\n")
        ++ so ++ (identStr ctx.level ++ "\x7d\n\n") := by
  unfold process_while at h
  simp only [List.isEmpty_cons, Bool.not_false, if_true, bind_apply, bindE_apply,
    getIdent_apply, write_apply, eq_self_iff_true, ite_true] at h
  cases hc : walkF (some t) 0 ctx with
  | mk sc rc =>
    rw [hc] at h
    cases rc with
    | error e => simp at h
    | ok uc =>
      obtain ⟨u, cc⟩ := uc
      cases u
      dsimp only at h
      cases hb : walkSeq walkF b 1 cc with
      | mk sb rb =>
        rw [hb] at h
        cases rb with
        | error e => simp at h
        | ok ub =>
          obtain ⟨u, cb⟩ := ub
          cases u
          dsimp only at h
          cases ho : walkSeq walkF (o1 :: orest) 1 cb with
          | mk so ro =>
            rw [ho] at h
            cases ro with
            | error e => simp at h
            | ok uo =>
              obtain ⟨u, ce⟩ := uo
              cases u
              dsimp only at h
              simp only [Prod.mk.injEq, Except.ok.injEq] at h
              obtain ⟨hs, -, hce⟩ := h
              subst hce
              have h1 := hW (some t) 0 ctx sc () cc hc
              have h2 := pres_walkSeq hW b 1 cc sb () cb hb
              have h3 := pres_walkSeq hW (o1 :: orest) 1 cb so () ce ho
              refine ⟨sc, sb, so, cc, cb, rfl, hb, ho,
                h1.2.1, h2.2.1.trans h1.2.1, ?_⟩
              rw [← hs]
              rw [h2.1.trans h1.1, h3.1.trans (h2.1.trans h1.1)]
              simp [String.append_assoc]

/-- C2: a while-loop with a fallback clause emits, in order, the sentinel
declaration `unsigned byte success = 1;` immediately before the loop
header, the while block, and the fallback block wrapped in
`if (success == 1) { ... }` immediately after the loop; the loop's body and
fallback are walked with `true` pushed on the per-loop fallback stack; a
`break` whose innermost recorded loop has a fallback emits `success = 0;`
immediately before `break;`, and a `break` whose innermost recorded loop
has none emits only `break;`. -/
theorem while_fallback_sentinel (fuel : Nat) (t : Node) (b : List Node)
    (o1 : Node) (orest : List Node) (ctx : Ctx) (s : String) (c2 : Ctx)
    (h : walkAux (fuel + 1) (some (Node.whileStmt t b (o1 :: orest))) ctx =
      (s, Except.ok ((), c2))) :
    (∃ sc sb so cc cb ce,
      cwalk fuel (some t) 0
          { level := ctx.level, hwo := true :: ctx.hwo,
            parents := Node.whileStmt t b (o1 :: orest) :: ctx.parents } =
        (sc, .ok ((), cc)) ∧
      walkSeq (cwalk fuel) b 1 cc = (sb, .ok ((), cb)) ∧
      walkSeq (cwalk fuel) (o1 :: orest) 1 cb = (so, .ok ((), ce)) ∧
      cc.hwo = true :: ctx.hwo ∧ cb.hwo = true :: ctx.hwo ∧
      s = identStr ctx.level ++ "unsigned byte success = 1;\n"
        ++ (identStr ctx.level ++ "while (") ++ sc ++ ") \x7b\n"
        ++ sb ++ (identStr ctx.level ++ "\x7d\n\n")
        ++ (identStr ctx.level ++ "if (success == 1) \x7b\n")
        ++ so ++ (identStr ctx.level ++ "\x7d\n\n"))
  ∧ (∀ (ctxB : Ctx) (rest : List Bool), ctxB.hwo = true :: rest →
      walkAux (fuel + 1) (some Node.breakStmt) ctxB =
        (identStr ctxB.level ++ "success = 0;\n"
          ++ (identStr ctxB.level ++ "break;\n"), .ok ((), ctxB)))
  ∧ (∀ (ctxB : Ctx) (rest : List Bool), ctxB.hwo = false :: rest →
      walkAux (fuel + 1) (some Node.breakStmt) ctxB =
        (identStr ctxB.level ++ "break;\n", .ok ((), ctxB))) := by
  refine ⟨?_, fun ctxB rest hB => break_run_true fuel ctxB rest hB,
    fun ctxB rest hB => break_run_false fuel ctxB rest hB⟩
  simp only [walkAux, walk_dispatch, bind_apply, bindE_apply, getCtx_apply,
    pushParent_apply, pushHwo_apply, List.isEmpty_cons, Bool.not_false] at h
  cases hpw : process_while (fun n lvl => withLevel lvl (walkAux fuel n))
      t b (o1 :: orest)
      { level := ctx.level, hwo := true :: ctx.hwo,
        parents := Node.whileStmt t b (o1 :: orest) :: ctx.parents } with
  | mk spw rpw =>
    rw [hpw] at h
    cases rpw with
    | error e => simp at h
    | ok upw =>
      obtain ⟨u, cpw⟩ := upw
      cases u
      simp only [popHwo_apply, popParent_apply, String.empty_append,
        Prod.mk.injEq, Except.ok.injEq] at h
      obtain ⟨hs, -, -⟩ := h
      subst hs
      obtain ⟨sc, sb, so, cc, cb, hc, hb, ho, hh1, hh2, hsw⟩ :=
        process_while_run
          (fun n lvl => pres_withLevel (pres_walkAux fuel n) lvl)
          t b o1 orest _ spw cpw hpw
      refine ⟨sc, sb, so, cc, cb, cpw, hc, hb, ho, ?_, ?_, ?_⟩
      · simpa using hh1
      · simpa using hh2
      · rw [hsw]
        simp [String.append_assoc]

/-- Witness for C2: a concrete loop with fallback; the break conjunct
applied at indentation level 1 with the fallback flag on top of the stack. -/
theorem while_fallback_sentinel_witness :
    walkAux 11 (some Node.breakStmt) { level := 1, hwo := [true], parents := [] } =
      ("    success = 0;\n    break;\n",
        .ok ((), { level := 1, hwo := [true], parents := [] })) :=
  (while_fallback_sentinel 10 (Node.name "c") [Node.breakStmt] Node.passStmt [] ctx0
    "unsigned byte success = 1;\nwhile (c) \x7b\n    success = 0;\n    break;\n\x7d\n\nif (success == 1) \x7b\n\x7d\n\n"
    ctx0 rfl).2.1 { level := 1, hwo := [true], parents := [] } [] rfl

/-- C7 (amended): a subscript whose slice is an `ast.Index` wrapper emits
`<container>[<index>]`; a subscript whose slice is a slice expression does
not abort — the dispatcher passes a `None` index, the inner walk is a
no-op, and the emission is `<container>[]` with empty brackets. -/
theorem subscript_index_and_slice (fuel : Nat) :
    (∀ (v i : Node) (ctx : Ctx) (s : String) (c2 : Ctx),
      walkAux (fuel + 1) (some (Node.subscript v (Node.indexN i))) ctx =
          (s, Except.ok ((), c2)) →
      ∃ sv si cc ci,
        cwalk fuel (some v) 0
            { level := ctx.level, hwo := ctx.hwo,
              parents := Node.subscript v (Node.indexN i) :: ctx.parents } =
          (sv, .ok ((), cc)) ∧
        cwalk fuel (some i) 0 cc = (si, .ok ((), ci)) ∧
        s = sv ++ "[" ++ si ++ "]")
  ∧ (∀ (v : Node) (lo hi st : Option Node) (ctx : Ctx) (s : String) (c2 : Ctx),
      walkAux (fuel + 1) (some (Node.subscript v (Node.sliceN lo hi st))) ctx =
          (s, Except.ok ((), c2)) →
      ∃ sv cc,
        cwalk fuel (some v) 0
            { level := ctx.level, hwo := ctx.hwo,
              parents := Node.subscript v (Node.sliceN lo hi st) :: ctx.parents } =
          (sv, .ok ((), cc)) ∧
        s = sv ++ "[" ++ "]") := by
  constructor
  · intro v i ctx s c2 h
    simp only [walkAux, walk_dispatch, process_subscript, bind_apply, bindE_apply,
      getCtx_apply, pushParent_apply, write_apply] at h
    cases hv : withLevel 0 (walkAux fuel (some v))
        { level := ctx.level, hwo := ctx.hwo,
          parents := Node.subscript v (Node.indexN i) :: ctx.parents } with
    | mk sv rv =>
      rw [hv] at h
      cases rv with
      | error e => simp at h
      | ok uv =>
        obtain ⟨u, cc⟩ := uv
        cases u
        dsimp only at h
        cases hi : withLevel 0 (walkAux fuel (some i)) cc with
        | mk si ri =>
          rw [hi] at h
          cases ri with
          | error e => simp at h
          | ok ui =>
            obtain ⟨u, ci⟩ := ui
            cases u
            simp only [popParent_apply, Prod.mk.injEq, Except.ok.injEq] at h
            obtain ⟨hs, -, -⟩ := h
            refine ⟨sv, si, cc, ci, hv, hi, ?_⟩
            rw [← hs]
            simp [String.append_assoc]
  · intro v lo hi st ctx s c2 h
    simp only [walkAux, walk_dispatch, process_subscript, bind_apply, bindE_apply,
      getCtx_apply, pushParent_apply, write_apply] at h
    cases hv : withLevel 0 (walkAux fuel (some v))
        { level := ctx.level, hwo := ctx.hwo,
          parents := Node.subscript v (Node.sliceN lo hi st) :: ctx.parents } with
    | mk sv rv =>
      rw [hv] at h
      cases rv with
      | error e => simp at h
      | ok uv =>
        obtain ⟨u, cc⟩ := uv
        cases u
        simp only [withLevel, walkAux, pure_apply, popParent_apply,
          Prod.mk.injEq, Except.ok.injEq] at h
        obtain ⟨hs, -, -⟩ := h
        refine ⟨sv, cc, hv, ?_⟩
        rw [← hs]
        simp [String.append_assoc]

/-- Witness for C7's amended claim: the concrete runs `x[1]` and `x[]`. -/
theorem subscript_index_and_slice_witness :
    (∃ sv si cc ci,
      cwalk 4 (some (Node.name "x")) 0
          { level := 0, hwo := [],
            parents := [Node.subscript (Node.name "x") (Node.indexN (Node.num 1))] } =
        (sv, .ok ((), cc)) ∧
      cwalk 4 (some (Node.num 1)) 0 cc = (si, .ok ((), ci)) ∧
      ("x[1]" : String) = sv ++ "[" ++ si ++ "]") :=
  (subscript_index_and_slice 4).1 (Node.name "x") (Node.num 1) ctx0 "x[1]" ctx0 rfl

/-- C8 (amended): when the `FunctionDef` node has no `type_comment`
attribute (a parse by Python < 3.8) and its first body statement is a
nonempty standalone string literal, the string is rendered as a block
comment immediately preceding the signature and is excluded from the
emitted body: the braces enclose only the remaining statements. -/
theorem docstring_extracted_pre38 (fuel : Nat) (nm : String)
    (args : List (Option Node × String)) (d : String) (rest : List Node)
    (returns : Option Node) (ctx : Ctx) (s : String) (c2 : Ctx)
    (pa : List (Option PyVal × String)) (rv : Option PyVal)
    (hargs : convertArgs args = .ok pa)
    (hret : convert_annotation returns = .ok rv)
    (hd : d ≠ "")
    (h : walkAux (fuel + 1) (some (Node.functionDef nm args
        (Node.exprStmt (Node.strLit d) :: rest) returns none)) ctx =
      (s, Except.ok ((), c2))) :
    ∃ sb cb,
      walkSeq (cwalk fuel) rest 1
          { level := ctx.level, hwo := ctx.hwo,
            parents := Node.functionDef nm args
              (Node.exprStmt (Node.strLit d) :: rest) returns none :: ctx.parents } =
        (sb, .ok ((), cb)) ∧
      s = mlcText ctx.level d
        ++ (identStr ctx.level ++ pyStr (annotationDefault rv) ++ " " ++ nm ++ "(")
        ++ (if pa.isEmpty then "void"
            else String.intercalate ", " (pa.map (fun p => pyStrOpt p.1 ++ " " ++ p.2)))
        ++ ") \x7b\n" ++ sb ++ "\x7d\n" := by
  have ht : pyTruthy (.vStr d) = true := by simp [pyTruthy, hd]
  simp only [walkAux, walk_dispatch, extractDocstring, process_def_function,
    bind_apply, bindE_apply, getCtx_apply, getIdent_apply, pushParent_apply,
    write_apply, hargs, hret, ht, if_true, process_multiline_comment_run] at h
  cases hb : walkSeq (fun n lvl => withLevel lvl (walkAux fuel n)) rest 1
      { level := ctx.level, hwo := ctx.hwo,
        parents := Node.functionDef nm args
          (Node.exprStmt (Node.strLit d) :: rest) returns none :: ctx.parents } with
  | mk sb rb =>
    rw [hb] at h
    cases rb with
    | error e => simp at h
    | ok ub =>
      obtain ⟨u, cb⟩ := ub
      cases u
      simp only [popParent_apply, Prod.mk.injEq, Except.ok.injEq] at h
      obtain ⟨hs, -, -⟩ := h
      refine ⟨sb, cb, hb, ?_⟩
      rw [← hs]
      simp [String.append_assoc, mlcText]

/-- Witness for C8's amended claim: `def f(): "doc"; pass` parsed without
the `type_comment` attribute. -/
theorem docstring_extracted_pre38_witness :
    ∃ sb cb,
      walkSeq (cwalk 19) [Node.passStmt] 1
          { level := 0, hwo := [],
            parents := [Node.functionDef "f" []
              [Node.exprStmt (Node.strLit "doc"), Node.passStmt] none none] } =
        (sb, .ok ((), cb)) ∧
      ("\n/*\ndoc\n*/\nvoid f(void) \x7b\n\x7d\n" : String) =
        "\n/*\ndoc\n*/\n" ++ "void f(" ++ "void" ++ ") \x7b\n" ++ sb ++ "\x7d\n" :=
  docstring_extracted_pre38 19 "f" [] "doc" [Node.passStmt] none ctx0
    "\n/*\ndoc\n*/\nvoid f(void) \x7b\n\x7d\n" ctx0 [] none rfl rfl
    (by decide) rfl

end Py2C
